import Mathlib

/-!
Verification development for the StockScreening repository
(eastmoney_fund_flow.py and stock_selection_strategy.py).

Numeric values that the Python code holds as floats are embedded as
rationals; Python division by a nonzero denominator, comparisons, min,
max and abs translate directly.  Dictionaries of raw scraped values are
embedded as total functions from field names to a RawValue type, and
optional / possibly-missing fields as Option.  Fallible operations are
embedded with Except.  The only operation that has no exact rational
counterpart, the square root used by the numpy standard deviation in the
15-day factor, is passed in as an explicit nonnegative function
parameter, so theorems about that factor hold for every square-root
implementation.
-/

/-! ## Sector records and the sector ranker (eastmoney_fund_flow.py) -/

/-- A sector row as built by the extraction strategies
(parse_api_response, extract_sector_data_from_row, ...):
name, change rate, super-large / large net inflow and their percentage
shares, and the stock with the largest main inflow. -/
structure SectorRecord where
  name : String
  change_rate : ℚ
  super_large_inflow : ℚ
  super_large_ratio : ℚ
  large_inflow : ℚ
  large_ratio : ℚ
  max_stock : String
deriving DecidableEq, Repr

/-- The composite sort key of process_sectors_data:
super_large_inflow + large_inflow. -/
def sectorKey (s : SectorRecord) : ℚ :=
  s.super_large_inflow + s.large_inflow

/-- Descending comparison on the composite key.  Python's list.sort with
reverse=True is a stable sort by the key in decreasing order. -/
def sectorDescLe (a b : SectorRecord) : Bool :=
  decide (sectorKey b ≤ sectorKey a)

/-- process_sectors_data: stable-sort the sectors in decreasing order of
super_large_inflow + large_inflow and take the first five as the top
sectors.  Returns (top_sectors, all_sectors) as in the source.  The JSON
persistence side effect of the source is out of scope. -/
def process_sectors_data (all_sectors : List SectorRecord) :
    List SectorRecord × List SectorRecord :=
  let sorted := all_sectors.mergeSort sectorDescLe
  (sorted.take 5, sorted)

/-! ## Retry wrapper (retry_with_backoff) -/

/-- One run of the loop body of the wrapper produced by
retry_with_backoff.  The operation is modelled as a map from the
invocation index to the outcome of that invocation; sleeping and the
backoff delay computation do not affect the returned value and are out
of scope.  The pair returned is (overall outcome, number of
invocations); the value component is an Option because the Python
wrapper ends with a literal return None after the loop. -/
def retryAux {E A : Type} (op : ℕ → Except E A) (max_retries : ℕ) :
    ℕ → ℕ → Except E (Option A) × ℕ
  | 0, _ => (Except.ok none, 0)
  | remaining + 1, attempt =>
    match op attempt with
    | Except.ok a => (Except.ok (some a), 1)
    | Except.error e =>
      if attempt = max_retries - 1 then
        (Except.error e, 1)
      else
        let p := retryAux op max_retries remaining (attempt + 1)
        (p.1, p.2 + 1)

/-- retry_with_backoff applied to an operation: run the loop
for attempt in range(max_retries), returning the first success,
re-raising the failure of the last attempt, and falling through to
return None only when the loop body never runs. -/
def retry_with_backoff {E A : Type} (max_retries : ℕ)
    (op : ℕ → Except E A) : Except E (Option A) × ℕ :=
  retryAux op max_retries max_retries 0

/-! ## Field extractor (extract_float_value) -/

/-- A numeral substring matched by the pattern
sign? digits ( dot digits )? of extract_float_value: an optional minus
sign, the integer digits, and the (possibly empty) fraction digits. -/
structure Numeral where
  neg : Bool
  intDigits : List Char
  fracDigits : List Char
deriving DecidableEq, Repr

/-- Digits to a natural number, most significant first. -/
def digitsToNat (ds : List Char) : ℕ :=
  ds.foldl (fun n c => 10 * n + (c.toNat - 48)) 0

/-- The rational value of a matched numeral. -/
def ratOfNumeral (n : Numeral) : ℚ :=
  let m : ℚ := (digitsToNat n.intDigits : ℚ) +
    (digitsToNat n.fracDigits : ℚ) / (10 : ℚ) ^ n.fracDigits.length
  if n.neg then -m else m

/-- Greedy match of digits ( dot digits )? once the sign has been
consumed; the fractional group participates only when a digit follows
the dot, exactly as the regex group is optional. -/
def matchDigits (cs : List Char) : Option Numeral :=
  let intDs := cs.takeWhile Char.isDigit
  if intDs.isEmpty then none
  else
    let rest := cs.dropWhile Char.isDigit
    let fracDs :=
      if rest.headD ' ' = '.' then rest.tail.takeWhile Char.isDigit else []
    some ⟨false, intDs, fracDs⟩

/-- Attempt of the whole pattern at one position.  The optional sign
class consumes a leading plus or minus only when digits follow it;
otherwise the pattern can still only succeed when the position itself
starts with a digit. -/
def matchNumeralAt (cs : List Char) : Option Numeral :=
  if cs.headD ' ' = '+' then matchDigits cs.tail
  else if cs.headD ' ' = '-' then
    (matchDigits cs.tail).map (fun n => ⟨true, n.intDigits, n.fracDigits⟩)
  else matchDigits cs

/-- re.search: try the pattern at each position from the left and keep
the first success. -/
def findNumeral : List Char → Option Numeral
  | [] => none
  | c :: rest =>
    match matchNumeralAt (c :: rest) with
    | some n => some n
    | none => findNumeral rest

/-- extract_float_value: the first signed decimal numeral of the text as
a rational, and 0.0 when no match exists.  The float conversion of a
matched group never fails, so the except branch of the source is
unreachable. -/
def extract_float_value (text : String) : ℚ :=
  match findNumeral text.data with
  | some n => ratOfNumeral n
  | none => 0

/-! ## Stock cleaning (clean_stock_data) -/

/-- A raw dictionary value before cleaning: a number, a string, or a
missing key. -/
inductive RawValue where
  | num (q : ℚ)
  | str (s : String)
  | absent
deriving DecidableEq

/-- The numeric fields enumerated by clean_stock_data. -/
def float_fields : List String :=
  ["price", "change_rate", "change_amount", "volume", "volume_amount",
   "turnover_rate", "volume_ratio", "pe_ratio", "pb_ratio",
   "market_cap", "circulation_cap", "high_price", "low_price",
   "open_price", "pre_close_price", "amplitude", "main_inflow",
   "main_ratio", "super_large_inflow", "super_large_ratio",
   "large_inflow", "large_ratio", "rsi", "ma5", "ma10", "ma20",
   "ma30", "ma60"]

/-- The placeholder tokens checked before the float conversion. -/
def placeholder_tokens : List String := ["-", "--", "None"]

/-- Python float() on the text of a raw cell, for the strings reaching
the conversion in clean_stock_data: optional surrounding spaces, an
optional sign, a decimal mantissa with at least one digit, and an
optional decimal exponent. -/
def parseFloat? (s : String) : Option ℚ :=
  let cs := (s.data.dropWhile (· = ' ')).reverse.dropWhile (· = ' ') |>.reverse
  let (neg, cs) : Bool × List Char :=
    match cs with
    | '+' :: rest => (false, rest)
    | '-' :: rest => (true, rest)
    | _ => (false, cs)
  let intDs := cs.takeWhile Char.isDigit
  let rest := cs.dropWhile Char.isDigit
  let (fracDs, rest) : List Char × List Char :=
    match rest with
    | '.' :: r => (r.takeWhile Char.isDigit, r.dropWhile Char.isDigit)
    | _ => ([], rest)
  if intDs.isEmpty ∧ fracDs.isEmpty then none
  else
    let mantissa : ℚ := (digitsToNat intDs : ℚ) +
      (digitsToNat fracDs : ℚ) / (10 : ℚ) ^ fracDs.length
    let signed := if neg then -mantissa else mantissa
    match rest with
    | [] => some signed
    | e :: r =>
      if e = 'e' ∨ e = 'E' then
        let (eneg, r) : Bool × List Char :=
          match r with
          | '+' :: r2 => (false, r2)
          | '-' :: r2 => (true, r2)
          | _ => (false, r)
        let expDs := r.takeWhile Char.isDigit
        if expDs.isEmpty ∨ ¬(r.dropWhile Char.isDigit).isEmpty then none
        else if eneg then some (signed / (10 : ℚ) ^ digitsToNat expDs)
        else some (signed * (10 : ℚ) ^ digitsToNat expDs)
      else none

/-- Cleaning of one raw numeric field value: missing keys and the empty
string become 0.0, the placeholder tokens become 0.0, values that fail
the float conversion become 0.0, and converted values above the 999999
sanity ceiling become 0.0. -/
def cleanValue : RawValue → ℚ
  | RawValue.absent => 0
  | RawValue.num q => if 999999 < q then 0 else q
  | RawValue.str s =>
    if s = "" then 0
    else if s ∈ placeholder_tokens then 0
    else
      match parseFloat? s with
      | some q => if 999999 < q then 0 else q
      | none => 0

/-- Round half to even at the last kept digit, the tie behaviour of
Python's round builtin. -/
def roundHalfEven (q : ℚ) : ℤ :=
  if q - (⌊q⌋ : ℚ) < 1 / 2 then ⌊q⌋
  else if 1 / 2 < q - (⌊q⌋ : ℚ) then ⌊q⌋ + 1
  else if ⌊q⌋ % 2 = 0 then ⌊q⌋ else ⌊q⌋ + 1

/-- Python round(q, d). -/
def pyRound (q : ℚ) (d : ℕ) : ℚ :=
  (roundHalfEven (q * (10 : ℚ) ^ d) : ℚ) / (10 : ℚ) ^ d

/-- The result of clean_stock_data: the dictionary with every enumerated
numeric field replaced by its cleaned value, plus the derived fields
computed afterwards. -/
structure CleanedStock where
  get : String → RawValue
  price_position : ℚ
  market_cap_billion : ℚ
  circulation_cap_billion : ℚ
  fund_intensity : ℚ
  volume_status : String
  turnover_status : String

/-- The cleaned numeric value of one field of a raw record. -/
def cleanedField (stock_info : String → RawValue) (fld : String) : ℚ :=
  cleanValue (stock_info fld)

/-- clean_stock_data: coerce every enumerated numeric field and compute
the derived indicators.  All arithmetic in the derived block is guarded,
so the defensive except branch of the source is unreachable. -/
def clean_stock_data (stock_info : String → RawValue) : CleanedStock :=
  let val := cleanedField stock_info
  let price := val "price"
  let high_price := val "high_price"
  let low_price := val "low_price"
  { get := fun fld =>
      if fld ∈ float_fields then RawValue.num (val fld) else stock_info fld
    price_position :=
      if low_price < high_price then
        pyRound ((price - low_price) / (high_price - low_price) * 100) 2
      else 50
    market_cap_billion := pyRound (val "market_cap" / 10000) 2
    circulation_cap_billion := pyRound (val "circulation_cap" / 10000) 2
    fund_intensity :=
      if 0 < val "circulation_cap" then
        pyRound (val "main_inflow" / val "circulation_cap" * 100) 4
      else 0
    volume_status := if 1 < val "volume_ratio" then "放量" else "缩量"
    turnover_status :=
      if 10 < val "turnover_rate" then "高换手"
      else if 5 < val "turnover_rate" then "中换手"
      else "低换手" }

/-! ## Extraction orchestrator
(crawl_eastmoney_fund_flow, try_multiple_extraction_methods) -/

/-- The record lists that the three HTML-based strategies would produce
from the fetched page: extract_data_from_tables,
extract_data_from_page_text and extract_with_pandas are each modelled by
their output, since the orchestration logic only inspects the lengths of
these lists. -/
structure HtmlExtraction where
  html_table : List SectorRecord
  page_text : List SectorRecord
  pandas_table : List SectorRecord

/-- EXTRACTION_CONFIG minimum record count. -/
def min_data_rows : ℕ := 5

/-- EXTRACTION_CONFIG extraction method order. -/
def extraction_methods : List String :=
  ["api", "html_table", "page_text", "pandas"]

/-- One iteration of the method loop of
try_multiple_extraction_methods: the branch chain handles the three
HTML-based names and leaves the accumulator untouched for any other
name (in particular for the leading api entry of the configured
order). -/
def runExtractionMethod (res : HtmlExtraction) (acc : List SectorRecord)
    (m : String) : List SectorRecord :=
  if m = "html_table" then res.html_table
  else if m = "page_text" then res.page_text
  else if m = "pandas" then res.pandas_table
  else acc

/-- The method loop: stop at the first method whose record count reaches
min_data_rows, otherwise keep the last result. -/
def tryMethodsLoop (res : HtmlExtraction) :
    List String → List SectorRecord → List SectorRecord
  | [], acc => acc
  | m :: ms, acc =>
    let next := runExtractionMethod res acc m
    if min_data_rows ≤ next.length then next else tryMethodsLoop res ms next

/-- try_multiple_extraction_methods over the configured order. -/
def try_multiple_extraction_methods (res : HtmlExtraction) :
    List SectorRecord := tryMethodsLoop res extraction_methods []

/-- The one failure crawl_eastmoney_fund_flow raises itself: fewer than
five records after every strategy has been tried. -/
inductive CrawlFailure where
  | insufficient_data
deriving DecidableEq

/-- crawl_eastmoney_fund_flow for one attempt: try the API strategy,
fall back to the HTML strategies when it yields fewer than five records,
raise the insufficient-data failure when still fewer than five records
remain, and otherwise rank the records. -/
def crawl_eastmoney_fund_flow (api_sectors : List SectorRecord)
    (html : HtmlExtraction) :
    Except CrawlFailure (List SectorRecord × List SectorRecord) :=
  let all_sectors := api_sectors
  let all_sectors :=
    if all_sectors.length < 5 then try_multiple_extraction_methods html
    else all_sectors
  if all_sectors.length < 5 then Except.error CrawlFailure.insufficient_data
  else Except.ok (process_sectors_data all_sectors)

/-! ## History bars and the RSI block of add_history_prices_to_stocks -/

/-- One parsed K-line bar of get_stock_history_prices. -/
structure DailyBar where
  date : String
  open_price : ℚ
  close_price : ℚ
  high_price : ℚ
  low_price : ℚ
  volume : ℚ
deriving DecidableEq, Repr

/-- The day-over-day deltas of the RSI block: for j in
range(1, min(15, len(close_prices))), the change
close_prices[j-1] - close_prices[j] — that is, the consecutive
differences of the first min(15, len) close prices. -/
def rsiDeltas (close_prices : List ℚ) : List ℚ :=
  let window := close_prices.take 15
  (window.zip window.tail).map (fun p => p.1 - p.2)

/-- The gains list: the positive deltas, in order. -/
def rsiGains (close_prices : List ℚ) : List ℚ :=
  (rsiDeltas close_prices).filter (fun c => 0 < c)

/-- The losses list: the remaining deltas, made nonnegative, in order. -/
def rsiLosses (close_prices : List ℚ) : List ℚ :=
  ((rsiDeltas close_prices).filter (fun c => ¬0 < c)).map (fun c => |c|)

/-- Average of a list of rationals, as sum divided by length. -/
def listAvg (l : List ℚ) : ℚ := l.sum / l.length

/-- The RSI block of add_history_prices_to_stocks on the close price
sequence (newest first): gated on at least 14 bars, on both the gains
and the losses list being nonempty, and on a nonzero average loss; only
then is the rsi field assigned. -/
def history_rsi (close_prices : List ℚ) : Option ℚ :=
  if 14 ≤ close_prices.length then
    let gains := rsiGains close_prices
    let losses := rsiLosses close_prices
    if gains ≠ [] ∧ losses ≠ [] then
      let avg_gain := listAvg gains
      let avg_loss := listAvg losses
      if avg_loss ≠ 0 then
        some (100 - 100 / (1 + avg_gain / avg_loss))
      else none
    else none
  else none

/-! ## 15-day momentum/reversal factor (stock_selection_strategy.py) -/

/-- The fields of a stock record read by
calculate_15day_momentum_reversal_factor: the optional history bar list
and the two dict.get lookups with defaults. -/
structure Stock15 where
  history_prices : Option (List DailyBar)
  volume_ratio : Option ℚ
  main_ratio : Option ℚ

/-- Maximum of a list of rationals with first element as seed, for the
builtin max over a nonempty sequence. -/
def listMax : List ℚ → ℚ
  | [] => 0
  | h :: t => t.foldl max h

/-- Minimum of a list of rationals with first element as seed. -/
def listMin : List ℚ → ℚ
  | [] => 0
  | h :: t => t.foldl min h

/-- Mean of a list of rationals. -/
def listMean (l : List ℚ) : ℚ := l.sum / l.length

/-- Population variance, the square of the numpy standard deviation. -/
def listVariance (l : List ℚ) : ℚ :=
  (l.map (fun x => (x - listMean l) ^ 2)).sum / l.length

/-- The daily returns of the 15-day factor: for consecutive close
prices, (newer - older) / older, skipping pairs whose older price is not
positive. -/
def dailyReturns (close_prices : List ℚ) : List ℚ :=
  (close_prices.zip close_prices.tail).filterMap
    (fun p => if 0 < p.2 then some ((p.1 - p.2) / p.2) else none)

/-- calculate_15day_momentum_reversal_factor.  The numpy square root
(used once inside np.std and once on 252) is the explicit parameter
sqrt; every theorem below holds for an arbitrary nonnegative
implementation of it. -/
def calculate_15day_momentum_reversal_factor (sqrt : ℚ → ℚ)
    (stock : Stock15) : ℚ :=
  match stock.history_prices with
  | none => 0
  | some history_prices =>
    if history_prices = [] then 0
    else if history_prices.length < 15 then 0
    else
      let close_prices := history_prices.map (fun p => p.close_price)
      let current_price := close_prices.getD 0 0
      let price_5days_ago := close_prices.getD 4 0
      let price_15days_ago := close_prices.getD 14 0
      let history_high := listMax close_prices
      let history_low := listMin close_prices
      let momentum_5day := (current_price - price_5days_ago) / price_5days_ago * 100
      let momentum_10day := (price_5days_ago - price_15days_ago) / price_15days_ago * 100
      let price_position :=
        if history_high ≠ history_low then
          (current_price - history_low) / (history_high - history_low) * 100
        else 50
      let price_returns := dailyReturns close_prices
      let volatility_factor :=
        if price_returns ≠ [] then
          let volatility := sqrt (listVariance price_returns) * sqrt 252
          min 1 ((0.3 : ℚ) / (volatility + 0.1))
        else 1
      let volume_ratio := stock.volume_ratio.getD 1
      let volume_factor := min 2 volume_ratio
      let main_ratio := stock.main_ratio.getD 0
      let fund_factor := 1 + main_ratio * 0.1
      let reversal_score :=
        if 15 < momentum_5day then
          if 80 < price_position then -momentum_5day * 0.8
          else -momentum_5day * 0.5
        else if momentum_5day < -10 then
          if price_position < 20 then |momentum_5day| * 0.8
          else |momentum_5day| * 0.5
        else
          if 0 < momentum_10day then momentum_5day * 1.2
          else momentum_5day * 0.8
      let final_score :=
        reversal_score * volatility_factor * volume_factor * fund_factor +
          price_position * 0.1
      max (-50) (min 50 final_score)

/-! ## Trend factor (calculate_trend_factor) -/

/-- The fields of a stock record read by calculate_trend_factor: the
three moving averages (whose presence is tested before use) and the
price lookup with default 0.  The function reads no other field, so two
inputs that agree on these four fields behave identically. -/
structure TrendStock where
  ma5 : Option ℚ
  ma10 : Option ℚ
  ma20 : Option ℚ
  price : Option ℚ

/-- calculate_trend_factor: 0.0 when an average is missing or any of the
averages or the price is not positive; otherwise the alignment score,
the clamped average gap score and the breakout score combined as
alignment * 40 + gap * 20 + breakout * 40, clamped to the range from
-100 to 100. -/
def calculate_trend_factor (stock : TrendStock) : ℚ :=
  if stock.ma5.isNone ∨ stock.ma10.isNone ∨ stock.ma20.isNone then 0
  else
    let ma5 := stock.ma5.getD 0
    let ma10 := stock.ma10.getD 0
    let ma20 := stock.ma20.getD 0
    let current_price := stock.price.getD 0
    if ma5 ≤ 0 ∨ ma10 ≤ 0 ∨ ma20 ≤ 0 ∨ current_price ≤ 0 then 0
    else
      let golden_cross_5_10 := ma10 < ma5
      let golden_cross_10_20 := ma20 < ma10
      let trend_strength : ℚ :=
        if golden_cross_5_10 ∧ golden_cross_10_20 then 1
        else if golden_cross_5_10 ∧ ¬golden_cross_10_20 then 0.5
        else if ¬golden_cross_5_10 ∧ golden_cross_10_20 then 0.3
        else -0.5
      let gap_5_10 := (ma5 - ma10) / ma10 * 100
      let gap_10_20 := (ma10 - ma20) / ma20 * 100
      let gap_factor := min 2 (max (-2) ((gap_5_10 + gap_10_20) / 2))
      let price_above_ma5 := ma5 < current_price
      let price_above_ma10 := ma10 < current_price
      let price_above_ma20 := ma20 < current_price
      let breakthrough_strength : ℚ :=
        if price_above_ma5 ∧ price_above_ma10 ∧ price_above_ma20 then 1
        else if price_above_ma5 ∧ price_above_ma10 then 0.6
        else if price_above_ma5 then 0.3
        else -0.5
      let trend_score :=
        trend_strength * 40 + gap_factor * 20 + breakthrough_strength * 40
      max (-100) (min 100 trend_score)

/-- C2 counterexample: a record whose cleaned price lies below its
cleaned low price gets price_position -80, outside the claimed range
from 0 to 100. -/
def c2_raw_counterexample : String → RawValue := fun fld =>
  if fld = "price" then RawValue.num 1
  else if fld = "high_price" then RawValue.num 10
  else if fld = "low_price" then RawValue.num 5
  else RawValue.num 0

/-! ## Theorems -/

theorem sectorDescLe_trans (a b c : SectorRecord) (hab : sectorDescLe a b)
    (hbc : sectorDescLe b c) : sectorDescLe a c := by
  simp only [sectorDescLe, decide_eq_true_eq] at *
  exact le_trans hbc hab

theorem sectorDescLe_total (a b : SectorRecord) :
    sectorDescLe a b || sectorDescLe b a := by
  simp only [sectorDescLe, Bool.or_eq_true, decide_eq_true_eq]
  exact le_total _ _

theorem filter_key_mergeSort (l : List SectorRecord) (q : ℚ) :
    (l.mergeSort sectorDescLe).filter (fun r => decide (sectorKey r = q)) =
      l.filter (fun r => decide (sectorKey r = q)) := by
  set p : SectorRecord → Bool := fun r => decide (sectorKey r = q) with hp
  have hkey : ∀ r ∈ l.filter p, sectorKey r = q := by
    intro r hr
    have := List.of_mem_filter hr
    simpa [hp] using this
  have hpw : (l.filter p).Pairwise (fun a b => sectorDescLe a b = true) := by
    apply List.pairwise_of_forall_mem_list
    intro a ha b hb
    simp [sectorDescLe, hkey a ha, hkey b hb]
  have hsub : List.Sublist (l.filter p) (l.mergeSort sectorDescLe) :=
    List.sublist_mergeSort sectorDescLe_trans sectorDescLe_total hpw
      (List.filter_sublist l)
  have hsub2 : List.Sublist ((l.filter p).filter p)
      ((l.mergeSort sectorDescLe).filter p) :=
    hsub.filter p
  rw [List.filter_filter] at hsub2
  simp only [Bool.and_self] at hsub2
  have hperm : List.Perm ((l.mergeSort sectorDescLe).filter p) (l.filter p) :=
    (List.mergeSort_perm l sectorDescLe).filter p
  exact (hsub2.eq_of_length hperm.length_eq.symm).symm

/-- C1: process_sectors_data returns the input list stably sorted in
decreasing order of super_large_inflow + large_inflow together with its
first five elements; records with an equal composite value keep their
relative input order, the top subset is an initial segment of the sorted
list, and the empty input yields empty outputs rather than an error. -/
theorem c1_sector_ranker (l : List SectorRecord) :
    ((process_sectors_data l).2).Pairwise
      (fun a b => sectorKey b ≤ sectorKey a) ∧
    (process_sectors_data l).2.Perm l ∧
    (∀ q : ℚ,
      ((process_sectors_data l).2).filter (fun r => decide (sectorKey r = q)) =
        l.filter (fun r => decide (sectorKey r = q))) ∧
    (process_sectors_data l).1 = ((process_sectors_data l).2).take 5 ∧
    (process_sectors_data l).1 ++ ((process_sectors_data l).2).drop 5 =
      (process_sectors_data l).2 ∧
    process_sectors_data [] = ([], []) := by
  refine ⟨?_, ?_, ?_, ?_, ?_, ?_⟩
  · have h := @List.sorted_mergeSort SectorRecord sectorDescLe
      sectorDescLe_trans sectorDescLe_total l
    exact h.imp (by intro a b hab; simpa [sectorDescLe] using hab)
  · exact List.mergeSort_perm l sectorDescLe
  · intro q
    exact filter_key_mergeSort l q
  · rfl
  · exact List.take_append_drop 5 _
  · simp [process_sectors_data]

/-- C3: with max_retries = 3, an operation that fails on its first two
invocations and succeeds on the third makes the wrapper return the
success after exactly three invocations, and an operation that fails on
every invocation makes the wrapper re-raise the failure of the third
invocation after exactly three invocations. -/
theorem c3_retry_wrapper {E A : Type} (op : ℕ → Except E A) :
    (∀ e0 e1 a, op 0 = Except.error e0 → op 1 = Except.error e1 →
      op 2 = Except.ok a →
      retry_with_backoff 3 op = (Except.ok (some a), 3)) ∧
    ((∀ i, ∃ e, op i = Except.error e) →
      ∃ e, op 2 = Except.error e ∧
        retry_with_backoff 3 op = (Except.error e, 3)) := by
  constructor
  · intro e0 e1 a h0 h1 h2
    simp [retry_with_backoff, retryAux, h0, h1, h2]
  · intro h
    obtain ⟨e0, h0⟩ := h 0
    obtain ⟨e1, h1⟩ := h 1
    obtain ⟨e2, h2⟩ := h 2
    exact ⟨e2, h2, by simp [retry_with_backoff, retryAux, h0, h1, h2]⟩

/-- C3 witness: the two parts of the retry theorem applied to concrete
operations over string errors and natural results. -/
theorem c3_retry_wrapper_witness :
    retry_with_backoff 3
      (fun i => if i = 2 then Except.ok 7 else Except.error "boom") =
      (Except.ok (some 7), 3) ∧
    ∃ e, (fun _ : ℕ => (Except.error "boom" : Except String ℕ)) 2 =
        Except.error e ∧
      retry_with_backoff 3 (fun _ : ℕ => (Except.error "boom" : Except String ℕ)) =
        (Except.error e, 3) :=
  ⟨(c3_retry_wrapper _).1 "boom" "boom" 7 rfl rfl rfl,
   (c3_retry_wrapper _).2 (fun _ => ⟨"boom", rfl⟩)⟩

theorem retryAux_spec {E A : Type} (op : ℕ → Except E A) (max_retries : ℕ) :
    ∀ remaining attempt, 1 ≤ remaining → attempt + remaining = max_retries →
    (∃ i a, attempt ≤ i ∧ i < max_retries ∧ op i = Except.ok a ∧
      (retryAux op max_retries remaining attempt).1 = Except.ok (some a)) ∨
    (∃ i e, attempt ≤ i ∧ i < max_retries ∧ op i = Except.error e ∧
      (retryAux op max_retries remaining attempt).1 = Except.error e) := by
  intro remaining
  induction remaining with
  | zero => intro attempt h1 _; omega
  | succ r ih =>
    intro attempt _ hsum
    rcases hop : op attempt with e | a
    · by_cases hlast : attempt = max_retries - 1
      · refine Or.inr ⟨attempt, e, le_refl _, by omega, hop, ?_⟩
        subst hlast
        simp [retryAux, hop]
      · have hr : 1 ≤ r := by omega
        have hsum' : (attempt + 1) + r = max_retries := by omega
        rcases ih (attempt + 1) hr hsum' with ⟨i, a, hi1, hi2, hi3, hi4⟩ |
          ⟨i, e', hi1, hi2, hi3, hi4⟩
        · refine Or.inl ⟨i, a, by omega, hi2, hi3, ?_⟩
          simpa [retryAux, hop, hlast] using hi4
        · refine Or.inr ⟨i, e', by omega, hi2, hi3, ?_⟩
          simpa [retryAux, hop, hlast] using hi4
    · refine Or.inl ⟨attempt, a, le_refl _, by omega, hop, ?_⟩
      simp [retryAux, hop]

/-- C9: for any positive retry budget, the wrapper either returns a value
produced by some invocation of the wrapped operation or propagates a
failure raised by some invocation; the trailing return None fallthrough
of the loop is unreachable, so the wrapper never silently yields None. -/
theorem c9_retry_no_silent_none {E A : Type} (max_retries : ℕ)
    (op : ℕ → Except E A) (h : 1 ≤ max_retries) :
    (retry_with_backoff max_retries op).1 ≠ Except.ok none ∧
    ((∃ i a, i < max_retries ∧ op i = Except.ok a ∧
        (retry_with_backoff max_retries op).1 = Except.ok (some a)) ∨
     (∃ i e, i < max_retries ∧ op i = Except.error e ∧
        (retry_with_backoff max_retries op).1 = Except.error e)) := by
  have hs := retryAux_spec op max_retries max_retries 0 h (by omega)
  constructor
  · rcases hs with ⟨i, a, _, _, _, h4⟩ | ⟨i, e, _, _, _, h4⟩
    · rw [retry_with_backoff, h4]; simp
    · rw [retry_with_backoff, h4]; simp
  · rcases hs with ⟨i, a, _, h2, h3, h4⟩ | ⟨i, e, _, h2, h3, h4⟩
    · exact Or.inl ⟨i, a, h2, h3, h4⟩
    · exact Or.inr ⟨i, e, h2, h3, h4⟩

/-- C9 witness: the wrapper theorem applied with budget three to a
concrete always-succeeding operation. -/
theorem c9_retry_no_silent_none_witness :
    (retry_with_backoff 3 (fun _ : ℕ => (Except.ok 1 : Except String ℕ))).1 ≠
      Except.ok none ∧
    ((∃ i a, i < 3 ∧ (fun _ : ℕ => (Except.ok 1 : Except String ℕ)) i =
          Except.ok a ∧
        (retry_with_backoff 3 (fun _ : ℕ => (Except.ok 1 : Except String ℕ))).1 =
          Except.ok (some a)) ∨
     (∃ i e, i < 3 ∧ (fun _ : ℕ => (Except.ok 1 : Except String ℕ)) i =
          Except.error e ∧
        (retry_with_backoff 3 (fun _ : ℕ => (Except.ok 1 : Except String ℕ))).1 =
          Except.error e)) :=
  c9_retry_no_silent_none 3 _ (by decide)

theorem matchDigits_eq_none (cs : List Char)
    (h : ∀ c ∈ cs, c.isDigit = false) : matchDigits cs = none := by
  cases cs with
  | nil => simp [matchDigits]
  | cons c t =>
    have hc : c.isDigit = false := h c (List.mem_cons_self c t)
    simp [matchDigits, List.takeWhile_cons, hc]

theorem matchDigits_isSome (c : Char) (t : List Char)
    (hc : c.isDigit = true) : ∃ n, matchDigits (c :: t) = some n := by
  simp [matchDigits, List.takeWhile_cons, hc]

theorem matchNumeralAt_eq_none (cs : List Char)
    (h : ∀ c ∈ cs, c.isDigit = false) : matchNumeralAt cs = none := by
  have htail : ∀ c ∈ cs.tail, c.isDigit = false :=
    fun c hc => h c (List.mem_of_mem_tail hc)
  rw [matchNumeralAt]
  split_ifs with h1 h2
  · exact matchDigits_eq_none _ htail
  · rw [matchDigits_eq_none _ htail]; rfl
  · exact matchDigits_eq_none _ h

theorem matchNumeralAt_isSome (c : Char) (t : List Char)
    (hc : c.isDigit = true) : ∃ n, matchNumeralAt (c :: t) = some n := by
  have h1 : c ≠ '+' := by rintro rfl; simp [Char.isDigit] at hc
  have h2 : c ≠ '-' := by rintro rfl; simp [Char.isDigit] at hc
  rw [matchNumeralAt]
  simp only [List.headD_cons, List.tail_cons, h1, h2, if_false]
  exact matchDigits_isSome c t hc

theorem findNumeral_eq_none (cs : List Char)
    (h : ∀ c ∈ cs, c.isDigit = false) : findNumeral cs = none := by
  induction cs with
  | nil => rfl
  | cons c t ih =>
    have hm : matchNumeralAt (c :: t) = none := matchNumeralAt_eq_none _ h
    have ht : ∀ x ∈ t, x.isDigit = false :=
      fun x hx => h x (List.mem_cons_of_mem c hx)
    simp [findNumeral, hm, ih ht]

theorem findNumeral_isSome (cs : List Char)
    (h : ∃ c ∈ cs, c.isDigit = true) : ∃ n, findNumeral cs = some n := by
  induction cs with
  | nil => simp at h
  | cons c t ih =>
    rcases hm : matchNumeralAt (c :: t) with _ | n
    · have : ∃ x ∈ t, x.isDigit = true := by
        rcases h with ⟨x, hx, hxd⟩
        rcases List.mem_cons.mp hx with rfl | hxt
        · obtain ⟨n, hn⟩ := matchNumeralAt_isSome x t hxd
          rw [hn] at hm
          cases hm
        · exact ⟨x, hxt, hxd⟩
      obtain ⟨n, hn⟩ := ih this
      exact ⟨n, by simp [findNumeral, hm, hn]⟩
    · exact ⟨n, by simp [findNumeral, hm]⟩

/-- C4: extract_float_value parses the first signed decimal numeral of a
text, returning 1.23 for the token +1.23% and 12.3 for the token 12.3
followed by a currency suffix; the placeholder tokens and every string
without a digit yield 0.0; and whenever a text contains a digit the
pattern matches and the returned value is the value of the first match.
The function is total, so it never fails on any string input. -/
theorem c4_field_extractor :
    extract_float_value "+1.23%" = 1.23 ∧
    extract_float_value "12.3亿" = 12.3 ∧
    extract_float_value "-" = 0 ∧
    extract_float_value "--" = 0 ∧
    extract_float_value "None" = 0 ∧
    extract_float_value "" = 0 ∧
    (∀ s : String, (∀ c ∈ s.data, c.isDigit = false) →
      extract_float_value s = 0) ∧
    (∀ s : String, (∃ c ∈ s.data, c.isDigit = true) →
      ∃ n, findNumeral s.data = some n ∧
        extract_float_value s = ratOfNumeral n) := by
  have hnone : ∀ s : String, (∀ c ∈ s.data, c.isDigit = false) →
      extract_float_value s = 0 := by
    intro s hs
    simp [extract_float_value, findNumeral_eq_none s.data hs]
  refine ⟨?_, ?_, ?_, ?_, ?_, ?_, hnone, ?_⟩
  · have h : findNumeral "+1.23%".data = some ⟨false, ['1'], ['2', '3']⟩ := by
      decide
    simp only [extract_float_value, h]
    norm_num [ratOfNumeral, (by decide : digitsToNat ['1'] = 1),
      (by decide : digitsToNat ['2', '3'] = 23)]
  · have h : findNumeral "12.3亿".data = some ⟨false, ['1', '2'], ['3']⟩ := by
      decide
    simp only [extract_float_value, h]
    norm_num [ratOfNumeral, (by decide : digitsToNat ['1', '2'] = 12),
      (by decide : digitsToNat ['3'] = 3)]
  · exact hnone "-" (by decide)
  · exact hnone "--" (by decide)
  · exact hnone "None" (by decide)
  · exact hnone "" (by decide)
  · intro s hs
    obtain ⟨n, hn⟩ := findNumeral_isSome s.data hs
    exact ⟨n, hn, by simp [extract_float_value, hn]⟩

/-- C4 witness: the quantified parts of the extractor theorem applied to
concrete digit-free and digit-containing strings. -/
theorem c4_field_extractor_witness :
    extract_float_value "abc" = 0 ∧
    ∃ n, findNumeral "a1b".data = some n ∧
      extract_float_value "a1b" = ratOfNumeral n := by
  obtain ⟨-, -, -, -, -, -, h7, h8⟩ := c4_field_extractor
  exact ⟨h7 "abc" (by decide), h8 "a1b" (by decide)⟩

theorem roundHalfEven_cases (q : ℚ) :
    roundHalfEven q = ⌊q⌋ ∨
      (roundHalfEven q = ⌊q⌋ + 1 ∧ 1 / 2 ≤ q - (⌊q⌋ : ℚ)) := by
  unfold roundHalfEven
  split_ifs with h1 h2 h3
  · exact Or.inl rfl
  · exact Or.inr ⟨rfl, le_of_lt h2⟩
  · exact Or.inl rfl
  · exact Or.inr ⟨rfl, not_lt.mp h1⟩

theorem roundHalfEven_bounds (q : ℚ) (n : ℤ) (h0 : 0 ≤ q)
    (h1 : q ≤ (n : ℚ)) : 0 ≤ roundHalfEven q ∧ roundHalfEven q ≤ n := by
  have hf0 : (0 : ℤ) ≤ ⌊q⌋ := Int.floor_nonneg.mpr h0
  have hfn : ⌊q⌋ ≤ n := by
    have h := Int.floor_le_floor h1
    simpa using h
  rcases roundHalfEven_cases q with h | ⟨h, hr⟩
  · rw [h]; exact ⟨hf0, hfn⟩
  · rw [h]
    refine ⟨by omega, ?_⟩
    have hlt : (⌊q⌋ : ℚ) < q := by linarith
    have : (⌊q⌋ : ℚ) < (n : ℚ) := lt_of_lt_of_le hlt h1
    have : ⌊q⌋ < n := by exact_mod_cast this
    omega

theorem pyRound2_bounds (q : ℚ) (h0 : 0 ≤ q) (h1 : q ≤ 100) :
    0 ≤ pyRound q 2 ∧ pyRound q 2 ≤ 100 := by
  have hq : q * (10 : ℚ) ^ 2 ≤ ((10000 : ℤ) : ℚ) := by
    push_cast
    nlinarith
  have h := roundHalfEven_bounds (q * (10 : ℚ) ^ 2) 10000 (by positivity) hq
  unfold pyRound
  constructor
  · apply div_nonneg _ (by norm_num)
    exact_mod_cast h.1
  · rw [div_le_iff (by norm_num)]
    have : ((roundHalfEven (q * (10 : ℚ) ^ 2) : ℤ) : ℚ) ≤ ((10000 : ℤ) : ℚ) := by
      exact_mod_cast h.2
    push_cast at this ⊢
    linarith

theorem c2_price_position_counterexample :
    (clean_stock_data c2_raw_counterexample).price_position = -80 ∧
    ¬(0 ≤ (clean_stock_data c2_raw_counterexample).price_position ∧
      (clean_stock_data c2_raw_counterexample).price_position ≤ 100) := by
  have hp : cleanedField c2_raw_counterexample "price" = 1 := by
    simp only [cleanedField, c2_raw_counterexample, cleanValue, if_pos]
    norm_num
  have hh : cleanedField c2_raw_counterexample "high_price" = 10 := by
    simp [cleanedField, c2_raw_counterexample, cleanValue]
    norm_num
  have hl : cleanedField c2_raw_counterexample "low_price" = 5 := by
    simp [cleanedField, c2_raw_counterexample, cleanValue]
    norm_num
  have h : (clean_stock_data c2_raw_counterexample).price_position = -80 := by
    simp only [clean_stock_data, hp, hh, hl]
    rw [if_pos (by norm_num : (5 : ℚ) < 10)]
    rw [(by norm_num : ((1 : ℚ) - 5) / (10 - 5) * 100 = -80)]
    rw [pyRound, roundHalfEven]
    norm_num
  refine ⟨h, ?_⟩
  rw [h]
  norm_num

/-- C2 (amended): clean_stock_data maps the placeholder values and the
empty or missing value of every enumerated numeric field to 0.0 and maps
numeric values above 999999 to 0.0; price_position lies in the range
from 0 to 100 whenever the cleaned price lies between the cleaned low
and high prices (the source computes an unclamped linear position, so a
cleaned price outside that band escapes the range, as the counterexample
shows); and price_position is exactly 50.0 when the cleaned high price
equals the cleaned low price. -/
theorem c2_stock_cleaning (stock_info : String → RawValue) :
    (∀ fld, fld ∈ float_fields →
      (stock_info fld = RawValue.absent ∨ stock_info fld = RawValue.str "" ∨
       stock_info fld = RawValue.str "-" ∨ stock_info fld = RawValue.str "--" ∨
       stock_info fld = RawValue.str "None") →
      (clean_stock_data stock_info).get fld = RawValue.num 0) ∧
    (∀ fld q, fld ∈ float_fields → stock_info fld = RawValue.num q →
      999999 < q → (clean_stock_data stock_info).get fld = RawValue.num 0) ∧
    (cleanedField stock_info "low_price" ≤ cleanedField stock_info "price" →
      cleanedField stock_info "price" ≤ cleanedField stock_info "high_price" →
      0 ≤ (clean_stock_data stock_info).price_position ∧
        (clean_stock_data stock_info).price_position ≤ 100) ∧
    (cleanedField stock_info "high_price" = cleanedField stock_info "low_price" →
      (clean_stock_data stock_info).price_position = 50) := by
  refine ⟨?_, ?_, ?_, ?_⟩
  · intro fld hmem hval
    simp only [clean_stock_data, if_pos hmem]
    rcases hval with h | h | h | h | h <;>
      simp [cleanedField, h, cleanValue, placeholder_tokens]
  · intro fld q hmem hval hq
    simp only [clean_stock_data, if_pos hmem]
    simp [cleanedField, hval, cleanValue, hq]
  · intro hlow hhigh
    simp only [clean_stock_data]
    by_cases h : cleanedField stock_info "low_price" <
        cleanedField stock_info "high_price"
    · rw [if_pos h]
      apply pyRound2_bounds
      · exact mul_nonneg (div_nonneg (by linarith) (by linarith)) (by norm_num)
      · have hdiv : (cleanedField stock_info "price" -
            cleanedField stock_info "low_price") /
            (cleanedField stock_info "high_price" -
              cleanedField stock_info "low_price") ≤ 1 :=
          (div_le_one (by linarith)).mpr (by linarith)
        linarith
    · rw [if_neg h]
      norm_num
  · intro h
    simp only [clean_stock_data]
    rw [if_neg (by rw [h]; exact lt_irrefl _)]

/-- C2 witness: the cleaning theorem applied to concrete records — a
record of placeholder strings, a record of out-of-range numbers, and a
record of all-zero prices. -/
theorem c2_stock_cleaning_witness :
    (clean_stock_data (fun _ => RawValue.str "-")).get "price" =
      RawValue.num 0 ∧
    (clean_stock_data (fun _ => RawValue.num 1000000)).get "price" =
      RawValue.num 0 ∧
    (0 ≤ (clean_stock_data (fun _ => RawValue.num 0)).price_position ∧
      (clean_stock_data (fun _ => RawValue.num 0)).price_position ≤ 100) ∧
    (clean_stock_data (fun _ => RawValue.num 0)).price_position = 50 := by
  refine ⟨(c2_stock_cleaning _).1 "price" (by decide)
      (Or.inr (Or.inr (Or.inl rfl))),
    (c2_stock_cleaning _).2.1 "price" 1000000 (by decide) rfl (by norm_num),
    (c2_stock_cleaning _).2.2.1 ?_ ?_,
    (c2_stock_cleaning _).2.2.2 rfl⟩
  · simp [cleanedField, cleanValue]
  · simp [cleanedField, cleanValue]

/-- C10: clean_stock_data assigns the neutral midpoint 50.0 to
price_position whenever the cleaned high price is at most the cleaned
low price, hence also on a record whose high and low fields are
inconsistent and not only when the two are equal. -/
theorem c10_price_position_inverted (stock_info : String → RawValue)
    (h : cleanedField stock_info "high_price" ≤
      cleanedField stock_info "low_price") :
    (clean_stock_data stock_info).price_position = 50 := by
  simp only [clean_stock_data]
  rw [if_neg (not_lt.mpr h)]

/-- C10 witness: the midpoint theorem applied to a record whose cleaned
high price 3 lies strictly below its cleaned low price 8. -/
theorem c10_price_position_inverted_witness :
    (clean_stock_data (fun fld =>
      if fld = "high_price" then RawValue.num 3
      else if fld = "low_price" then RawValue.num 8
      else RawValue.num 1)).price_position = 50 := by
  apply c10_price_position_inverted
  simp [cleanedField, cleanValue]
  norm_num

theorem clamp50_bounds (x : ℚ) :
    -50 ≤ max (-50) (min 50 x) ∧ max (-50) (min 50 x) ≤ 50 :=
  ⟨le_max_left _ _, max_le (by norm_num) (min_le_left _ _)⟩

/-- C5: the 15-day factor returns exactly 0.0 on a stock with no
history or with fewer than 15 history bars, and on a stock with at
least 15 bars of positive close prices its value lies in the closed
range from -50 to 50, for every square-root implementation. -/
theorem c5_15day_factor (sqrt : ℚ → ℚ) (stock : Stock15) :
    (stock.history_prices = none →
      calculate_15day_momentum_reversal_factor sqrt stock = 0) ∧
    (∀ l, stock.history_prices = some l → l.length < 15 →
      calculate_15day_momentum_reversal_factor sqrt stock = 0) ∧
    (∀ l, stock.history_prices = some l → 15 ≤ l.length →
      (∀ bar ∈ l, 0 < bar.close_price) →
      -50 ≤ calculate_15day_momentum_reversal_factor sqrt stock ∧
        calculate_15day_momentum_reversal_factor sqrt stock ≤ 50) := by
  refine ⟨?_, ?_, ?_⟩
  · intro h
    simp [calculate_15day_momentum_reversal_factor, h]
  · intro l hl hlen
    simp only [calculate_15day_momentum_reversal_factor, hl]
    by_cases he : l = []
    · rw [if_pos he]
    · rw [if_neg he, if_pos hlen]
  · intro l hl hlen hpos
    simp only [calculate_15day_momentum_reversal_factor, hl]
    have hne : ¬l = [] := by
      rintro rfl
      simp at hlen
    rw [if_neg hne, if_neg (not_lt.mpr hlen)]
    exact clamp50_bounds _

/-- C5 witness: the factor theorem applied, with the zero function as
square root, to a one-bar stock and to a fifteen-bar stock of constant
positive prices. -/
theorem c5_15day_factor_witness :
    calculate_15day_momentum_reversal_factor (fun _ => 0)
      ⟨some [⟨"d", 1, 1, 1, 1, 1⟩], none, none⟩ = 0 ∧
    (-50 ≤ calculate_15day_momentum_reversal_factor (fun _ => 0)
        ⟨some (List.replicate 15 ⟨"d", 1, 1, 1, 1, 1⟩), none, none⟩ ∧
      calculate_15day_momentum_reversal_factor (fun _ => 0)
        ⟨some (List.replicate 15 ⟨"d", 1, 1, 1, 1, 1⟩), none, none⟩ ≤ 50) := by
  constructor
  · exact (c5_15day_factor _ _).2.1
      [⟨"d", 1, 1, 1, 1, 1⟩] rfl (by norm_num)
  · exact (c5_15day_factor _ _).2.2
      (List.replicate 15 ⟨"d", 1, 1, 1, 1, 1⟩) rfl (by simp)
      (fun bar hb => by rw [List.eq_of_mem_replicate hb]; norm_num)

theorem clamp100_gt_80 (x : ℚ) (hx : 80 < x) :
    80 < max (-100) (min 100 x) := by
  rcases le_total x 100 with h | h
  · rw [min_eq_right h, max_eq_right (by linarith)]
    exact hx
  · rw [min_eq_left h, max_eq_right (by norm_num)]
    norm_num

theorem clamp100_eq_self (x : ℚ) (h1 : -100 ≤ x) (h2 : x ≤ 100) :
    max (-100) (min 100 x) = x := by
  rw [min_eq_right h2, max_eq_right h1]

/-- C6: the trend factor is 0.0 whenever one of the three moving
averages is missing or one of the averages or the price is not
positive; and a fully bullish configuration (averages in strictly
decreasing window order with the price above all three) scores strictly
higher than a fully bearish configuration (the reverse order with the
price below all three).  The function reads only the four fields of
TrendStock, so two records agreeing on them are interchangeable. -/
theorem c6_trend_factor :
    (∀ s : TrendStock, s.ma5 = none ∨ s.ma10 = none ∨ s.ma20 = none →
      calculate_trend_factor s = 0) ∧
    (∀ s : TrendStock,
      s.ma5.getD 0 ≤ 0 ∨ s.ma10.getD 0 ≤ 0 ∨ s.ma20.getD 0 ≤ 0 ∨
        s.price.getD 0 ≤ 0 →
      calculate_trend_factor s = 0) ∧
    (∀ a5 a10 a20 p b5 b10 b20 q : ℚ,
      0 < a20 → a20 < a10 → a10 < a5 → a5 < p → a10 < p → a20 < p →
      0 < q → q < b5 → b5 < b10 → b10 < b20 →
      calculate_trend_factor ⟨some b5, some b10, some b20, some q⟩ <
        calculate_trend_factor ⟨some a5, some a10, some a20, some p⟩) := by
  refine ⟨?_, ?_, ?_⟩
  · intro s h
    rcases h with h | h | h <;> simp [calculate_trend_factor, h]
  · intro s h
    simp only [calculate_trend_factor]
    by_cases h1 : (s.ma5.isNone ∨ s.ma10.isNone ∨ s.ma20.isNone : Prop)
    · rw [if_pos h1]
    · rw [if_neg h1, if_pos h]
  · intro a5 a10 a20 p b5 b10 b20 q
    intro ha20 ha2010 ha105 ha5p ha10p ha20p hq0 hqb5 hb510 hb1020
    have hbull : calculate_trend_factor ⟨some a5, some a10, some a20, some p⟩ =
        max (-100) (min 100 ((1 : ℚ) * 40 + min 2 (max (-2)
          (((a5 - a10) / a10 * 100 + (a10 - a20) / a20 * 100) / 2)) * 20 +
          (1 : ℚ) * 40)) := by
      simp only [calculate_trend_factor, Option.isNone_some, Option.getD_some]
      rw [if_neg (by simp),
        if_neg (by push_neg; exact ⟨by linarith, by linarith, by linarith,
          by linarith⟩),
        if_pos ⟨by linarith, by linarith⟩,
        if_pos ⟨by linarith, by linarith, by linarith⟩]
    have hbear : calculate_trend_factor ⟨some b5, some b10, some b20, some q⟩ =
        max (-100) (min 100 ((-0.5 : ℚ) * 40 + min 2 (max (-2)
          (((b5 - b10) / b10 * 100 + (b10 - b20) / b20 * 100) / 2)) * 20 +
          (-0.5 : ℚ) * 40)) := by
      simp only [calculate_trend_factor, Option.isNone_some, Option.getD_some]
      rw [if_neg (by simp),
        if_neg (by push_neg; exact ⟨by linarith, by linarith, by linarith,
          by linarith⟩),
        if_neg (by rintro ⟨h, -⟩; linarith),
        if_neg (by rintro ⟨h, -⟩; linarith),
        if_neg (by rintro ⟨-, h⟩; linarith),
        if_neg (by rintro ⟨h, -⟩; linarith),
        if_neg (by rintro ⟨h, -⟩; linarith),
        if_neg (by intro h; linarith)]
    have hgap_pos : 0 <
        ((a5 - a10) / a10 * 100 + (a10 - a20) / a20 * 100) / 2 := by
      have t1 : 0 < (a5 - a10) / a10 := div_pos (by linarith) (by linarith)
      have t2 : 0 < (a10 - a20) / a20 := div_pos (by linarith) (by linarith)
      linarith
    have hgf_pos : 0 < min 2 (max (-2)
        (((a5 - a10) / a10 * 100 + (a10 - a20) / a20 * 100) / 2)) :=
      lt_min (by norm_num) (lt_of_lt_of_le hgap_pos (le_max_right _ _))
    have hgap_neg :
        ((b5 - b10) / b10 * 100 + (b10 - b20) / b20 * 100) / 2 < 0 := by
      have t1 : (b5 - b10) / b10 < 0 :=
        div_neg_of_neg_of_pos (by linarith) (by linarith)
      have t2 : (b10 - b20) / b20 < 0 :=
        div_neg_of_neg_of_pos (by linarith) (by linarith)
      linarith
    have hgf_neg : min 2 (max (-2)
        (((b5 - b10) / b10 * 100 + (b10 - b20) / b20 * 100) / 2)) < 0 :=
      lt_of_le_of_lt (min_le_right _ _) (max_lt (by norm_num) hgap_neg)
    have hgf_ge : -2 ≤ min 2 (max (-2)
        (((b5 - b10) / b10 * 100 + (b10 - b20) / b20 * 100) / 2)) :=
      le_min (by norm_num) (le_max_left _ _)
    rw [hbull, hbear]
    have hbull_gt : (80 : ℚ) < max (-100) (min 100 ((1 : ℚ) * 40 +
        min 2 (max (-2)
          (((a5 - a10) / a10 * 100 + (a10 - a20) / a20 * 100) / 2)) * 20 +
        (1 : ℚ) * 40)) := by
      apply clamp100_gt_80
      nlinarith
    have hbear_eq : max (-100) (min 100 ((-0.5 : ℚ) * 40 + min 2 (max (-2)
        (((b5 - b10) / b10 * 100 + (b10 - b20) / b20 * 100) / 2)) * 20 +
        (-0.5 : ℚ) * 40)) = (-0.5 : ℚ) * 40 + min 2 (max (-2)
        (((b5 - b10) / b10 * 100 + (b10 - b20) / b20 * 100) / 2)) * 20 +
        (-0.5 : ℚ) * 40 := by
      apply clamp100_eq_self <;> nlinarith
    rw [hbear_eq]
    nlinarith

/-- C6 witness: the trend factor theorem applied to a record with a
missing average, a record with a nonpositive average, and the concrete
bullish and bearish configurations 4 over 3 over 2 with price 5 against
3 under 4 under 5 with price 2. -/
theorem c6_trend_factor_witness :
    calculate_trend_factor ⟨none, some 1, some 1, some 1⟩ = 0 ∧
    calculate_trend_factor ⟨some 0, some 1, some 1, some 1⟩ = 0 ∧
    calculate_trend_factor ⟨some 3, some 4, some 5, some 2⟩ <
      calculate_trend_factor ⟨some 4, some 3, some 2, some 5⟩ := by
  refine ⟨c6_trend_factor.1 _ (Or.inl rfl), c6_trend_factor.2.1 _ ?_, ?_⟩
  · exact Or.inl (by norm_num)
  · exact c6_trend_factor.2.2 4 3 2 5 3 4 5 2 (by norm_num) (by norm_num)
      (by norm_num) (by norm_num) (by norm_num) (by norm_num) (by norm_num)
      (by norm_num) (by norm_num) (by norm_num)

/-- C7: one crawl attempt tries the API strategy first and, when it
yields fewer than five records, the HTML-table, regex-text and
tabular-fallback strategies in that order; the first strategy whose
record count reaches the threshold of five is accepted and no later
strategy result is consulted; and when every strategy leaves fewer than
five records the attempt raises the insufficient-data failure (which
the retry wrapper of C3 treats as a retriable error) instead of
returning the short list. -/
theorem c7_orchestrator (api : List SectorRecord) (html : HtmlExtraction) :
    (5 ≤ api.length →
      crawl_eastmoney_fund_flow api html =
        Except.ok (process_sectors_data api)) ∧
    (api.length < 5 → 5 ≤ html.html_table.length →
      crawl_eastmoney_fund_flow api html =
        Except.ok (process_sectors_data html.html_table)) ∧
    (api.length < 5 → html.html_table.length < 5 →
      5 ≤ html.page_text.length →
      crawl_eastmoney_fund_flow api html =
        Except.ok (process_sectors_data html.page_text)) ∧
    (api.length < 5 → html.html_table.length < 5 →
      html.page_text.length < 5 → 5 ≤ html.pandas_table.length →
      crawl_eastmoney_fund_flow api html =
        Except.ok (process_sectors_data html.pandas_table)) ∧
    (api.length < 5 → html.html_table.length < 5 →
      html.page_text.length < 5 → html.pandas_table.length < 5 →
      crawl_eastmoney_fund_flow api html =
        Except.error CrawlFailure.insufficient_data) := by
  have heval : ∀ h : HtmlExtraction, try_multiple_extraction_methods h =
      if 5 ≤ h.html_table.length then h.html_table
      else if 5 ≤ h.page_text.length then h.page_text
      else h.pandas_table := by
    intro h
    simp [try_multiple_extraction_methods, extraction_methods, tryMethodsLoop,
      runExtractionMethod, min_data_rows]
  refine ⟨?_, ?_, ?_, ?_, ?_⟩ <;> intro h1 <;>
    simp only [crawl_eastmoney_fund_flow, heval] <;>
    try intro h2
  · split_ifs <;> first | rfl | omega
  · split_ifs <;> first | rfl | omega
  · intro h3
    split_ifs <;> first | rfl | omega
  · intro h3 h4
    split_ifs <;> first | rfl | omega
  · intro h3 h4
    split_ifs <;> first | rfl | omega

/-- C7 witness: the orchestrator theorem applied to concrete inputs: a
five-record API result accepted directly, a five-record HTML-table
result accepted after a short API result, and an all-short run raising
the insufficient-data failure. -/
theorem c7_orchestrator_witness :
    crawl_eastmoney_fund_flow
        (List.replicate 5 ⟨"s", 0, 0, 0, 0, 0, "m"⟩)
        ⟨[], [], []⟩ =
      Except.ok (process_sectors_data
        (List.replicate 5 ⟨"s", 0, 0, 0, 0, 0, "m"⟩)) ∧
    crawl_eastmoney_fund_flow []
        ⟨List.replicate 5 ⟨"t", 1, 1, 1, 1, 1, "n"⟩, [], []⟩ =
      Except.ok (process_sectors_data
        (List.replicate 5 ⟨"t", 1, 1, 1, 1, 1, "n"⟩)) ∧
    crawl_eastmoney_fund_flow [] ⟨[], [], []⟩ =
      Except.error CrawlFailure.insufficient_data := by
  refine ⟨(c7_orchestrator _ _).1 (by simp),
    (c7_orchestrator _ _).2.1 (by simp) (by simp),
    (c7_orchestrator _ _).2.2.2.2 (by simp) (by simp) (by simp) (by simp)⟩

/-- C8 counterexample: fourteen strictly falling close prices (newest
first 1, 2, ..., 14) give fourteen bars, every day-over-day delta
negative, an average loss of 1, and yet no rsi assignment, because the
source also requires the gains list to be nonempty. -/
theorem c8_history_rsi_counterexample :
    14 ≤ ([1, 2, 3, 4, 5, 6, 7, 8, 9, 10, 11, 12, 13, 14] : List ℚ).length ∧
    listAvg (rsiLosses
      ([1, 2, 3, 4, 5, 6, 7, 8, 9, 10, 11, 12, 13, 14] : List ℚ)) ≠ 0 ∧
    history_rsi ([1, 2, 3, 4, 5, 6, 7, 8, 9, 10, 11, 12, 13, 14] : List ℚ) =
      none := by
  have hd : rsiDeltas ([1, 2, 3, 4, 5, 6, 7, 8, 9, 10, 11, 12, 13, 14] : List ℚ) =
      [-1, -1, -1, -1, -1, -1, -1, -1, -1, -1, -1, -1, -1] := by
    norm_num [rsiDeltas]
  have hg : rsiGains ([1, 2, 3, 4, 5, 6, 7, 8, 9, 10, 11, 12, 13, 14] : List ℚ) =
      [] := by
    norm_num [rsiGains, hd]
  have hl : rsiLosses ([1, 2, 3, 4, 5, 6, 7, 8, 9, 10, 11, 12, 13, 14] : List ℚ) =
      [1, 1, 1, 1, 1, 1, 1, 1, 1, 1, 1, 1, 1] := by
    norm_num [rsiLosses, hd]
  refine ⟨by norm_num, ?_, ?_⟩
  · rw [hl]
    norm_num [listAvg]
  · rw [history_rsi]
    simp [hg]

/-- C8 (amended): on a close price history of at least 14 bars the
14-period RSI is computed from the gains and losses over up to 14
day-over-day deltas and stored whenever both lists are nonempty and the
average loss is nonzero; the rsi field is left unset when the average
loss is zero and also when one of the two lists is empty (in particular
on a history whose deltas are all non-positive, as in the
counterexample), not only when the average loss is zero. -/
theorem c8_history_rsi (close_prices : List ℚ) :
    (14 ≤ close_prices.length → rsiGains close_prices ≠ [] →
      rsiLosses close_prices ≠ [] → listAvg (rsiLosses close_prices) ≠ 0 →
      history_rsi close_prices = some (100 - 100 /
        (1 + listAvg (rsiGains close_prices) /
          listAvg (rsiLosses close_prices)))) ∧
    ((history_rsi close_prices).isSome ↔
      14 ≤ close_prices.length ∧ rsiGains close_prices ≠ [] ∧
        rsiLosses close_prices ≠ [] ∧
        listAvg (rsiLosses close_prices) ≠ 0) := by
  constructor
  · intro h1 h2 h3 h4
    rw [history_rsi]
    rw [if_pos h1, if_pos ⟨h2, h3⟩, if_pos h4]
  · rw [history_rsi]
    by_cases h1 : 14 ≤ close_prices.length
    · rw [if_pos h1]
      by_cases h2 : rsiGains close_prices ≠ [] ∧ rsiLosses close_prices ≠ []
      · rw [if_pos h2]
        by_cases h3 : listAvg (rsiLosses close_prices) ≠ 0
        · rw [if_pos h3]
          simp [h1, h2.1, h2.2, h3]
        · rw [if_neg h3]
          refine iff_of_false (by simp) ?_
          rintro ⟨-, -, -, h⟩
          exact h3 h
      · rw [if_neg h2]
        refine iff_of_false (by simp) ?_
        rintro ⟨-, hg, hl, -⟩
        exact h2 ⟨hg, hl⟩
    · rw [if_neg h1]
      refine iff_of_false (by simp) ?_
      rintro ⟨h, -⟩
      exact h1 h

/-- C8 witness: the amended RSI theorem applied to fourteen alternating
close prices, whose deltas contain seven gains of 1 and six losses of
1, giving a stored RSI. -/
theorem c8_history_rsi_witness :
    history_rsi ([2, 1, 2, 1, 2, 1, 2, 1, 2, 1, 2, 1, 2, 1] : List ℚ) =
      some (100 - 100 / (1 +
        listAvg (rsiGains ([2, 1, 2, 1, 2, 1, 2, 1, 2, 1, 2, 1, 2, 1] : List ℚ)) /
        listAvg (rsiLosses ([2, 1, 2, 1, 2, 1, 2, 1, 2, 1, 2, 1, 2, 1] : List ℚ)))) := by
  have hd : rsiDeltas ([2, 1, 2, 1, 2, 1, 2, 1, 2, 1, 2, 1, 2, 1] : List ℚ) =
      [1, -1, 1, -1, 1, -1, 1, -1, 1, -1, 1, -1, 1] := by
    norm_num [rsiDeltas]
  have hg : rsiGains ([2, 1, 2, 1, 2, 1, 2, 1, 2, 1, 2, 1, 2, 1] : List ℚ) =
      [1, 1, 1, 1, 1, 1, 1] := by
    norm_num [rsiGains, hd]
  have hl : rsiLosses ([2, 1, 2, 1, 2, 1, 2, 1, 2, 1, 2, 1, 2, 1] : List ℚ) =
      [1, 1, 1, 1, 1, 1] := by
    norm_num [rsiLosses, hd]
  exact (c8_history_rsi _).1 (by norm_num) (by rw [hg]; simp)
    (by rw [hl]; simp) (by rw [hl]; norm_num [listAvg])
